import Mathlib

/-!
Verification of the Halix custom-element SDK (`src/index.ts`).

The development shallowly embeds the two stateful subsystems of the module:

* the stylesheet cache (`fetchCss`, the module-level maps `cssTextCache`,
  `sheetCache`, `inflight`), and
* the `HalixLitElement` base class (the `context` setter, the protected
  `initializeContext` method, `addStylesheet`, `addStylesheets`) together with
  the module-level function `initializeContext`.

Pure synchronous code is embedded as Lean functions over explicit state.
The `async`/`await` structure of `fetchCss` and `addStylesheet` is embedded a
second time as a small-step machine whose events are exactly the suspension
points of the source (task start, network settlement, task resumption), so
that claims about concurrent callers can be stated over interleavings.
-/

/-- Model of a `fetch` response as observed by `fetchCss`: the fields `ok`,
`status` and `statusText` that the source reads, and the decoded text body
returned by `res.text()`. -/
structure FetchResponse where
  ok : Bool
  status : Nat
  statusText : String
  body : String
deriving Repr, DecidableEq

/-- Message of the error thrown by `fetchCss` on a non-ok response, mirroring
the template literal in the source. -/
def cssErrorMsg (url : String) (status : Nat) (statusText : String) : String :=
  "Failed to load CSS " ++ url ++ ": " ++ toString status ++ " " ++ statusText

/-- Sequential embedding of one complete, uninterrupted run of `fetchCss url`
from a quiescent process state.  The process state is the module-level
`cssTextCache` map, embedded as an association list (newest entry first, as
`Map.set` overrides).  At sequential quiescence the `inflight` map is empty on
entry, and it is empty again on return because the `finally` clause of the
source deletes the entry unconditionally; it is therefore not part of this
sequential state (the small-step machine below tracks it explicitly).

`response` is the response the network would produce for this call; it is
consulted only if the run actually performs a retrieval.  The result is the
triple of the settled outcome of the returned promise, the updated text cache,
and the number of network retrievals performed by this call. -/
def fetchCssSeq (response : FetchResponse) (url : String)
    (cssTextCache : List (String × String)) :
    Except String String × List (String × String) × Nat :=
  match cssTextCache.lookup url with
  | some t => (Except.ok t, cssTextCache, 0)
  | none =>
    if response.ok then
      (Except.ok response.body, (url, response.body) :: cssTextCache, 1)
    else
      (Except.error (cssErrorMsg url response.status response.statusText),
        cssTextCache, 1)

/-- Iterated sequential calls of `fetchCss` on one URL: `responses` lists the
response the network would give to each successive call.  Returns the final
text cache and the total number of network retrievals performed. -/
def runFetchCalls (url : String) (cache : List (String × String)) :
    List FetchResponse → List (String × String) × Nat
  | [] => (cache, 0)
  | r :: rs =>
    let step := fetchCssSeq r url cache
    let rest := runFetchCalls url step.2.1 rs
    (rest.1, step.2.2 + rest.2)

/-- Outcome of the underlying retrieval of one `fetchCss` promise: either the
decoded text, or a failure carrying the HTTP status that the thrown error
reports. -/
inductive FOutcome
  | ok (text : String)
  | fail (status : Nat) (statusText : String)
deriving Repr, DecidableEq

/-- State of one promise in the small-step machine. -/
inductive Prom
  | pending
  | settled (o : FOutcome)
deriving Repr, DecidableEq

/-- Phase of one `fetchCss` caller in the small-step machine.  The `creator`
flag records whether this call built the promise and therefore runs the
`finally` clause that deletes the in-flight entry when it resumes. -/
inductive FTask
  | notStarted
  | awaiting (pid : Nat) (creator : Bool)
  | done (o : FOutcome)
deriving Repr, DecidableEq

/-- Small-step state of the `fetchCss` subsystem for a single URL: the text
cache entry for that URL, the in-flight entry (the promise id stored in the
`inflight` map), the promises created so far, the number of network retrievals
issued, and the phase of every caller (callers beyond those of interest stay
`notStarted`). -/
structure FProc where
  cache : Option String
  inflight : Option Nat
  promCount : Nat
  proms : Nat → Prom
  fetchCount : Nat
  tasks : Nat → FTask

/-- Events of the `fetchCss` small-step machine, one per suspension point of
the source: `start i` runs the synchronous prefix of call `i` (the `inflight`
check, the cache check inside the async body up to its first await, the
`inflight.set`), `settle pid o` settles a pending retrieval, and `resume i`
resumes call `i` after the promise it awaits has settled (for the creator this
runs the `finally` clause deleting the in-flight entry). -/
inductive FEvent
  | start (i : Nat)
  | settle (pid : Nat) (o : FOutcome)
  | resume (i : Nat)
deriving Repr, DecidableEq

/-- One step of the `fetchCss` machine.  Events whose precondition does not
hold are no-ops, so arbitrary event lists can be folded. -/
def fStep (s : FProc) (e : FEvent) : FProc :=
  match e with
  | .start i =>
    match s.tasks i with
    | .notStarted =>
      match s.inflight with
      | some pid =>
        { s with tasks := fun j => if j = i then .awaiting pid false else s.tasks j }
      | none =>
        match s.cache with
        | some t =>
          { s with
            promCount := s.promCount + 1
            proms := fun p => if p = s.promCount then .settled (.ok t) else s.proms p
            inflight := some s.promCount
            tasks := fun j => if j = i then .awaiting s.promCount true else s.tasks j }
        | none =>
          { s with
            promCount := s.promCount + 1
            proms := fun p => if p = s.promCount then .pending else s.proms p
            inflight := some s.promCount
            fetchCount := s.fetchCount + 1
            tasks := fun j => if j = i then .awaiting s.promCount true else s.tasks j }
    | _ => s
  | .settle pid o =>
    if pid < s.promCount then
      match s.proms pid with
      | .pending =>
        { s with
          proms := fun p => if p = pid then .settled o else s.proms p
          cache := match o with | .ok t => some t | .fail _ _ => s.cache }
      | _ => s
    else s
  | .resume i =>
    match s.tasks i with
    | .awaiting pid c =>
      match s.proms pid with
      | .settled o =>
        { s with
          tasks := fun j => if j = i then .done o else s.tasks j
          inflight := if c then none else s.inflight }
      | _ => s
    | _ => s

/-- Fold a list of events over the `fetchCss` machine. -/
def fRun (s : FProc) (evs : List FEvent) : FProc := evs.foldl fStep s

/-- Initial `fetchCss` machine state: empty caches, no promises, no retrievals,
every caller not yet started. -/
def fInit : FProc :=
  { cache := none, inflight := none, promCount := 0
    proms := fun _ => Prom.pending, fetchCount := 0
    tasks := fun _ => FTask.notStarted }

/-- Model of the sandbox record of a session, restricted to the field the
source reads (`objKey`).  Leaves are `Option` because the source reads them
from untyped runtime data where they may be absent. -/
structure SandboxModel where
  objKey : Option String
deriving Repr, DecidableEq

/-- Model of the user-proxy record of a session, restricted to the field the
source reads (`objKey`); the record itself is also passed through whole. -/
structure UserProxyModel where
  objKey : Option String
deriving Repr, DecidableEq

/-- Model of the `session` record of a `CustomElementContext`, restricted to
the fields the source reads.  Opaque records passed through by reference
(`user`, `organizationProxy`) are modelled as identifier strings. -/
structure SessionModel where
  sandbox : Option SandboxModel
  user : Option String
  userProxy : Option UserProxyModel
  organizationProxy : Option String
  organizationProxyKey : Option String
  organizationKey : Option String
deriving Repr, DecidableEq

/-- Model of a `CustomElementContext`, restricted to the fields the source
reads.  The function `authTokenRetriever` and the record `pageContext` are
passed through by reference and modelled as identifier strings. -/
structure ContextModel where
  pageContext : String
  session : Option SessionModel
  serviceAddress : Option String
  authTokenRetriever : String
deriving Repr, DecidableEq

/-- The `userContext` block of the payload that `initializeContext` assembles. -/
structure UserContextPayload where
  user : Option String
  userProxy : Option UserProxyModel
  orgProxy : Option String
  orgProxyKey : Option String
  orgKey : Option String
  userProxyKey : Option String
deriving Repr, DecidableEq

/-- The `body` record of the payload that `initializeContext` assembles;
`params` is the empty record, modelled as an association list. -/
structure InitBody where
  authTokenRetriever : String
  sandboxKey : Option String
  serviceAddress : Option String
  actionSubject : String
  userContext : UserContextPayload
  params : List (String × String)
deriving Repr, DecidableEq

/-- The payload passed to `actionSdk.initialize`. -/
structure InitPayload where
  body : InitBody
deriving Repr, DecidableEq

/-- The payload assembled by the module-level `initializeContext`, mirroring
the object literal in the source field by field; optional chaining (`?.`)
becomes `Option.bind`. -/
def initializeContextPayload (context : ContextModel) : InitPayload :=
  { body :=
    { authTokenRetriever := context.authTokenRetriever
      sandboxKey :=
        (context.session.bind (fun s => s.sandbox)).bind (fun sb => sb.objKey)
      serviceAddress := context.serviceAddress
      actionSubject := context.pageContext
      userContext :=
        { user := context.session.bind (fun s => s.user)
          userProxy := context.session.bind (fun s => s.userProxy)
          orgProxy := context.session.bind (fun s => s.organizationProxy)
          orgProxyKey := context.session.bind (fun s => s.organizationProxyKey)
          orgKey := context.session.bind (fun s => s.organizationKey)
          userProxyKey :=
            (context.session.bind (fun s => s.userProxy)).bind (fun up => up.objKey) }
      params := [] } }

/-- The module-level `initializeContext` function.  The action SDK collaborator
is modelled by its identity (a string token) and by the list of calls made to
its `initialize` entry point; the function appends exactly one call carrying
the assembled payload. -/
def initializeContext (context : ContextModel) (actionSdk : String)
    (calls : List (String × InitPayload)) : List (String × InitPayload) :=
  calls ++ [(actionSdk, initializeContextPayload context)]

/-- Alias for the module-level `initializeContext`, definitionally equal to it;
used inside the `HalixElement` namespace, where the bare name would resolve to
the method of the same name. -/
def initializeContextFun : ContextModel → String → List (String × InitPayload) →
    List (String × InitPayload) :=
  initializeContext

/-- Per-instance state of a `HalixLitElement`: the injected SDK handle `hx`,
the stored context `_context`, the applied-URL set `_appliedCssUrls`
(embedded as a list in insertion order), and the render root, which holds the
adopted constructed sheets and the injected fallback `style` elements in
append order.  A constructed sheet is modelled by the CSS text it was built
from. -/
structure HalixElement where
  hx : Option String
  _context : Option ContextModel
  appliedCssUrls : List String
  adoptedSheets : List String
  styleChildren : List String
deriving Repr, DecidableEq

/-- A freshly constructed element: no SDK handle, no context, nothing applied. -/
def freshElement : HalixElement :=
  { hx := none, _context := none, appliedCssUrls := []
    adoptedSheets := [], styleChildren := [] }

/-- Observable calls made by the `context` setter: the `onContextAvailable`
hook, the `requestUpdate` notification to Lit, and (for stating what the
setter does not do) a call to the SDK initialization entry point. -/
inductive SetterEvent
  | hookCalled (context : ContextModel)
  | updateRequested (oldVal : Option ContextModel)
  | sdkInitCalled (payload : InitPayload)
deriving Repr, DecidableEq

/-- Truthiness of `val?.session?.organizationProxyKey`: the key must be present
down the optional chain and be a non-empty string. -/
def contextReady : Option ContextModel → Bool
  | none => false
  | some c =>
    match c.session with
    | none => false
    | some s =>
      match s.organizationProxyKey with
      | none => false
      | some k => !(k == "")

/-- The `context` setter of `HalixLitElement`: stores the new value
unconditionally; when the new value satisfies the readiness check it invokes
`onContextAvailable` with the new value and then `requestUpdate` with the old
value.  Returns the updated element and the ordered list of calls the setter
itself makes. -/
def setContext (el : HalixElement) (val : Option ContextModel) :
    HalixElement × List SetterEvent :=
  let oldVal := el._context
  let el' := { el with _context := val }
  if contextReady val then
    match val with
    | some c => (el', [SetterEvent.hookCalled c, SetterEvent.updateRequested oldVal])
    | none => (el', [])
  else (el', [])

/-- Whether a setter event is a call to the SDK initialization entry point. -/
def isSdkInitEvent : SetterEvent → Bool
  | .sdkInitCalled _ => true
  | _ => false

/-- The protected `initializeContext` method of `HalixLitElement`: stores the
SDK instance in `hx`, then delegates to the module-level `initializeContext`
with the same context and SDK instance. -/
def HalixElement.initializeContext (el : HalixElement) (context : ContextModel)
    (actionSdk : String) (calls : List (String × InitPayload)) :
    HalixElement × List (String × InitPayload) :=
  ({ el with hx := some actionSdk }, initializeContextFun context actionSdk calls)

/-- The module-level shared stylesheet caches: `cssTextCache` and `sheetCache`
(a constructed sheet is modelled by the CSS text it was built from). -/
structure StyleShared where
  cssTextCache : List (String × String)
  sheetCache : List (String × String)
deriving Repr, DecidableEq

/-- Message logged by `addStylesheet` when fetching or applying fails,
mirroring the `console.error` call in the source (the error object is appended
to the message). -/
def addStyleLogMsg (url : String) (err : String) : String :=
  "[HalixLitElement] Failed to add stylesheet " ++ url ++ ": " ++ err

deriving instance DecidableEq for Except

/-- Result of a complete sequential run of `addStylesheet` or
`addStylesheets`: the settled outcome, the updated shared caches, the updated
element, the console error messages emitted, and the number of network
retrievals performed. -/
structure StyleResult where
  result : Except String Unit
  shared : StyleShared
  elem : HalixElement
  log : List String
  fetches : Nat
deriving Repr, DecidableEq

/-- Sequential embedding of one complete run of
`HalixLitElement.addStylesheet url` from a quiescent state.  `supports` is the
module-level `supportsAdopted` capability flag; `response` is the response the
network would produce for this URL. -/
def addStylesheet (supports : Bool) (response : FetchResponse)
    (shared : StyleShared) (el : HalixElement) (url : String) : StyleResult :=
  if url ∈ el.appliedCssUrls then
    { result := Except.ok (), shared := shared, elem := el, log := [], fetches := 0 }
  else
    let el1 := { el with appliedCssUrls := el.appliedCssUrls ++ [url] }
    match fetchCssSeq response url shared.cssTextCache with
    | (Except.error e, cache, nf) =>
      { result := Except.error e
        shared := { shared with cssTextCache := cache }
        elem := el1
        log := [addStyleLogMsg url e]
        fetches := nf }
    | (Except.ok text, cache, nf) =>
      let sh := { shared with cssTextCache := cache }
      if supports then
        match sh.sheetCache.lookup url with
        | some sheet =>
          { result := Except.ok (), shared := sh
            elem := { el1 with adoptedSheets := el1.adoptedSheets ++ [sheet] }
            log := [], fetches := nf }
        | none =>
          { result := Except.ok ()
            shared := { sh with sheetCache := (url, text) :: sh.sheetCache }
            elem := { el1 with adoptedSheets := el1.adoptedSheets ++ [text] }
            log := [], fetches := nf }
      else
        { result := Except.ok (), shared := sh
          elem := { el1 with styleChildren := el1.styleChildren ++ [text] }
          log := [], fetches := nf }

/-- An entry of the array passed to `addStylesheets`: a string, or a non-string
value that slipped in at runtime (the source guards against both). -/
inductive UrlArg
  | str (s : String)
  | notAString
deriving Repr, DecidableEq

/-- Sequential embedding of `HalixLitElement.addStylesheets`: runs serially
over the array in order, skipping falsy or non-string entries, awaiting each
`addStylesheet`; the first failure aborts the remainder and propagates.
`network` gives the response the network would produce for each URL. -/
def addStylesheets (supports : Bool) (network : String → FetchResponse)
    (shared : StyleShared) (el : HalixElement) : List UrlArg → StyleResult
  | [] => { result := Except.ok (), shared := shared, elem := el, log := [], fetches := 0 }
  | UrlArg.notAString :: rest => addStylesheets supports network shared el rest
  | UrlArg.str url :: rest =>
    if url == "" then addStylesheets supports network shared el rest
    else
      let r := addStylesheet supports (network url) shared el url
      match r.result with
      | Except.error e =>
        { result := Except.error e, shared := r.shared, elem := r.elem
          log := r.log, fetches := r.fetches }
      | Except.ok _ =>
        let r2 := addStylesheets supports network r.shared r.elem rest
        { result := r2.result, shared := r2.shared, elem := r2.elem
          log := r.log ++ r2.log, fetches := r.fetches + r2.fetches }

/-- Phase of one `addStylesheet` caller in the small-step machine for
concurrent calls on one instance and one URL. -/
inductive SPhase
  | idle
  | fetching
  | done
deriving Repr, DecidableEq

/-- Small-step state for two concurrent `addStylesheet` calls on the same
instance and the same URL: whether the URL is in the instance's applied-URL
set, the phase of each call, and how many times the style has been appended to
the render root. -/
structure SState where
  applied : Bool
  t1 : SPhase
  t2 : SPhase
  rootCount : Nat
deriving Repr, DecidableEq

/-- Events of the `addStylesheet` machine: `startK` runs the synchronous prefix
of call K (the applied-set check and, if absent, the marking, ending at the
`await fetchCss` suspension point); `finK` resumes call K after its fetch
resolved and appends the style to the render root. -/
inductive SEvent
  | start1
  | start2
  | fin1
  | fin2
deriving Repr, DecidableEq

/-- One step of the `addStylesheet` machine; events whose precondition does not
hold are no-ops. -/
def sStep (s : SState) (e : SEvent) : SState :=
  match e with
  | .start1 =>
    match s.t1 with
    | .idle =>
      if s.applied then { s with t1 := SPhase.done }
      else { s with applied := true, t1 := SPhase.fetching }
    | _ => s
  | .start2 =>
    match s.t2 with
    | .idle =>
      if s.applied then { s with t2 := SPhase.done }
      else { s with applied := true, t2 := SPhase.fetching }
    | _ => s
  | .fin1 =>
    match s.t1 with
    | .fetching => { s with t1 := SPhase.done, rootCount := s.rootCount + 1 }
    | _ => s
  | .fin2 =>
    match s.t2 with
    | .fetching => { s with t2 := SPhase.done, rootCount := s.rootCount + 1 }
    | _ => s

/-- Fold a list of events over the `addStylesheet` machine. -/
def sRun (s : SState) (evs : List SEvent) : SState := evs.foldl sStep s

/-- Initial `addStylesheet` machine state: URL not applied, both calls idle,
render root untouched. -/
def sInit : SState :=
  { applied := false, t1 := SPhase.idle, t2 := SPhase.idle, rootCount := 0 }

/-- A 404 response, as in the failure scenario of the spec. -/
def resp404 : FetchResponse :=
  { ok := false, status := 404, statusText := "Not Found", body := "" }

/-- A successful response carrying a small CSS body. -/
def respA : FetchResponse :=
  { ok := true, status := 200, statusText := "OK", body := "css-a" }

/-- Example session for the payload-assembly scenario of the spec:
`sandbox.objKey = "sbx1"`, `organizationKey = "org1"`, and a non-empty
`organizationProxyKey` (so a context holding it is ready). -/
def sessionEx : SessionModel :=
  { sandbox := some { objKey := some "sbx1" }
    user := some "user-rec"
    userProxy := some { objKey := some "up-key" }
    organizationProxy := some "org-proxy-rec"
    organizationProxyKey := some "opk1"
    organizationKey := some "org1" }

/-- Example context for the payload-assembly scenario of the spec:
`serviceAddress = "https://svc"` and the session above; it satisfies the
readiness condition. -/
def ctxEx : ContextModel :=
  { pageContext := "page-ctx"
    session := some sessionEx
    serviceAddress := some "https://svc"
    authTokenRetriever := "token-fn" }

/-- Example context whose session has an empty organization-proxy key, so it
does not satisfy the readiness condition. -/
def notReadyCtx : ContextModel :=
  { ctxEx with session := some { sessionEx with organizationProxyKey := some "" } }

/-- Invariant of the `addStylesheet` machine: the number of appended styles
plus the number of calls still fetching equals one as soon as the URL is
marked applied, and nothing has happened while it is unmarked. -/
def sInv (s : SState) : Prop :=
  s.rootCount + (if s.t1 = SPhase.fetching then 1 else 0)
      + (if s.t2 = SPhase.fetching then 1 else 0)
    = (if s.applied then 1 else 0) ∧
  (s.applied = false → s.t1 = SPhase.idle ∧ s.t2 = SPhase.idle ∧ s.rootCount = 0)

/-- Invariant of the `fetchCss` machine after at least one of the first `n`
callers has started and before the retrieval settles: exactly one promise
exists, it is the pending retrieval, it is the in-flight entry, one retrieval
has been issued, one started caller is its creator, and every caller is either
not started yet or awaiting that promise. -/
def fInv1 (n : Nat) (s : FProc) : Prop :=
  s.cache = none ∧ s.inflight = some 0 ∧ s.promCount = 1 ∧
  s.proms 0 = Prom.pending ∧ s.fetchCount = 1 ∧
  (∃ j, j < n ∧ s.tasks j = FTask.awaiting 0 true) ∧
  (∀ i, s.tasks i = FTask.notStarted ∨ ∃ c, s.tasks i = FTask.awaiting 0 c) ∧
  (∀ i, n ≤ i → s.tasks i = FTask.notStarted)

/-- Invariant of the `fetchCss` machine from the settlement of the single
retrieval onwards: the one promise is settled with outcome `o`, still exactly
one retrieval was issued, each of the `n` callers is awaiting that promise or
done with outcome `o`, and the in-flight entry is gone unless the creator has
not yet resumed. -/
def fInv3 (n : Nat) (o : FOutcome) (s : FProc) : Prop :=
  s.promCount = 1 ∧ s.proms 0 = Prom.settled o ∧ s.fetchCount = 1 ∧
  (∀ i, i < n → (∃ c, s.tasks i = FTask.awaiting 0 c) ∨ s.tasks i = FTask.done o) ∧
  (∀ i, n ≤ i → s.tasks i = FTask.notStarted) ∧
  ((∃ j, j < n ∧ s.tasks j = FTask.awaiting 0 true) ∨ s.inflight = none)

/-! ### Helper lemmas about association-list lookup and the sequential fetch -/

theorem lookup_cons_self {β : Type} (u : String) (b : β) (l : List (String × β)) :
    ((u, b) :: l).lookup u = some b := by
  simp [List.lookup]

theorem lookup_cons_ne {β : Type} (u v : String) (b : β) (l : List (String × β))
    (h : v ≠ u) : ((u, b) :: l).lookup v = l.lookup v := by
  simp [List.lookup, beq_eq_false_iff_ne.mpr h]

theorem fetchCssSeq_cached (r : FetchResponse) (url t : String)
    (cache : List (String × String)) (h : cache.lookup url = some t) :
    fetchCssSeq r url cache = (Except.ok t, cache, 0) := by
  simp [fetchCssSeq, h]

theorem fetchCssSeq_miss_ok (r : FetchResponse) (url : String)
    (cache : List (String × String)) (hmiss : cache.lookup url = none)
    (hok : r.ok = true) :
    fetchCssSeq r url cache = (Except.ok r.body, (url, r.body) :: cache, 1) := by
  simp [fetchCssSeq, hmiss, hok]

theorem fetchCssSeq_miss_fail (r : FetchResponse) (url : String)
    (cache : List (String × String)) (hmiss : cache.lookup url = none)
    (hfail : r.ok = false) :
    fetchCssSeq r url cache
      = (Except.error (cssErrorMsg url r.status r.statusText), cache, 1) := by
  simp [fetchCssSeq, hmiss, hfail]

theorem runFetchCalls_cached (url t : String) (cache : List (String × String))
    (h : cache.lookup url = some t) :
    ∀ rs : List FetchResponse, runFetchCalls url cache rs = (cache, 0) := by
  intro rs
  induction rs with
  | nil => rfl
  | cons r rs ih => simp [runFetchCalls, fetchCssSeq_cached r url t cache h, ih]

/-! ### Claims C1, C6, C7, C10 -/

/-- Claim C1, counterexample to "network retrieval for a given URL happens at
most once for the lifetime of the process": when the first retrieval fails
(404), the failure is not cached and a second call retries, so two retrievals
for the same URL happen in one process lifetime. -/
theorem fetchCss_single_retrieval_ctrex :
    (fetchCssSeq resp404 "u" []).2.2
        + (fetchCssSeq respA "u" (fetchCssSeq resp404 "u" []).2.1).2.2 = 2 ∧
    ¬((fetchCssSeq resp404 "u" []).2.2
        + (fetchCssSeq respA "u" (fetchCssSeq resp404 "u" []).2.1).2.2 ≤ 1) := by
  decide

/-- Claim C1 (amended): once a call to `fetchCss` has succeeded and stored the
text in the text cache, every subsequent call with that URL resolves with the
identical cached text and performs no further network retrieval — network
retrieval for the URL happens at most once after the first success (before
one, failed retrievals may be retried, see C6). -/
theorem fetchCss_cached_after_success (response : FetchResponse) (url : String)
    (cache : List (String × String)) (hok : response.ok = true)
    (hmiss : cache.lookup url = none) :
    fetchCssSeq response url cache
      = (Except.ok response.body, (url, response.body) :: cache, 1) ∧
    (∀ r2, fetchCssSeq r2 url ((url, response.body) :: cache)
      = (Except.ok response.body, (url, response.body) :: cache, 0)) ∧
    (∀ rs, runFetchCalls url ((url, response.body) :: cache) rs
      = ((url, response.body) :: cache, 0)) := by
  refine ⟨fetchCssSeq_miss_ok response url cache hmiss hok, fun r2 => ?_, fun rs => ?_⟩
  · exact fetchCssSeq_cached r2 url response.body _ (lookup_cons_self url response.body cache)
  · exact runFetchCalls_cached url response.body _ (lookup_cons_self url response.body cache) rs

/-- Witness for C1's theorem at a concrete successful first call followed by a
second call whose network response would be a 404: the second call still
resolves with the cached text and performs no retrieval. -/
theorem fetchCss_cached_after_success_w :
    fetchCssSeq respA "u" [] = (Except.ok respA.body, [("u", respA.body)], 1) ∧
    fetchCssSeq resp404 "u" [("u", respA.body)]
      = (Except.ok respA.body, [("u", respA.body)], 0) :=
  ⟨(fetchCss_cached_after_success respA "u" [] (by decide) (by decide)).1,
   (fetchCss_cached_after_success respA "u" [] (by decide) (by decide)).2.1 resp404⟩

/-- Claim C6: a non-success response status fails `fetchCss` with an error
referencing the URL and the status, the text is not cached, afterwards neither
the text cache nor the in-flight cache holds an entry for that URL (shown on
the small-step machine for the spec's 404 scenario), and a later call for the
same URL performs a fresh retrieval. -/
theorem fetchCss_failure_not_cached (response : FetchResponse) (url : String)
    (cache : List (String × String)) (hmiss : cache.lookup url = none)
    (hfail : response.ok = false) :
    fetchCssSeq response url cache
      = (Except.error (cssErrorMsg url response.status response.statusText), cache, 1) ∧
    fetchCssSeq resp404 "https://cdn.example/a.css" []
      = (Except.error "Failed to load CSS https://cdn.example/a.css: 404 Not Found", [], 1) ∧
    (fRun fInit [FEvent.start 0, FEvent.settle 0 (FOutcome.fail 404 "Not Found"),
        FEvent.resume 0]).inflight = none ∧
    (fRun fInit [FEvent.start 0, FEvent.settle 0 (FOutcome.fail 404 "Not Found"),
        FEvent.resume 0]).cache = none ∧
    (fRun fInit [FEvent.start 0, FEvent.settle 0 (FOutcome.fail 404 "Not Found"),
        FEvent.resume 0]).tasks 0 = FTask.done (FOutcome.fail 404 "Not Found") ∧
    (∀ r2, r2.ok = true → fetchCssSeq r2 url cache
      = (Except.ok r2.body, (url, r2.body) :: cache, 1)) := by
  refine ⟨fetchCssSeq_miss_fail response url cache hmiss hfail, by decide, by decide,
    by decide, by decide, fun r2 h2 => fetchCssSeq_miss_ok r2 url cache hmiss h2⟩

/-- Witness for C6's theorem at the spec's scenario: fetching
`https://cdn.example/a.css` against an empty cache with a 404 response. -/
theorem fetchCss_failure_not_cached_w :
    fetchCssSeq resp404 "https://cdn.example/a.css" []
      = (Except.error (cssErrorMsg "https://cdn.example/a.css" resp404.status resp404.statusText),
          [], 1) ∧
    fetchCssSeq respA "https://cdn.example/a.css" []
      = (Except.ok respA.body, [("https://cdn.example/a.css", respA.body)], 1) :=
  ⟨(fetchCss_failure_not_cached resp404 "https://cdn.example/a.css" [] (by decide) (by decide)).1,
   (fetchCss_failure_not_cached resp404 "https://cdn.example/a.css" [] (by decide)
      (by decide)).2.2.2.2.2 respA (by decide)⟩

/-- Claim C7: `initializeContext` invokes the SDK's initialize entry point
exactly once, with a payload of the shape `body.{authTokenRetriever,
sandboxKey, serviceAddress, actionSubject, userContext.{user, userProxy,
orgProxy, orgProxyKey, orgKey, userProxyKey}, params}` where `params` is the
empty record; the spec's scenario context yields `sandboxKey = "sbx1"`,
`userContext.orgKey = "org1"`, `serviceAddress = "https://svc"`; absent
intermediate records yield absent fields rather than a failure. -/
theorem initializeContext_payload (c : ContextModel) (sdk : String)
    (calls : List (String × InitPayload)) (s : SessionModel)
    (hsess : c.session = some s) :
    initializeContext c sdk calls = calls ++ [(sdk, initializeContextPayload c)] ∧
    (initializeContext c sdk calls).length = calls.length + 1 ∧
    (initializeContextPayload ctxEx).body.sandboxKey = some "sbx1" ∧
    (initializeContextPayload ctxEx).body.userContext.orgKey = some "org1" ∧
    (initializeContextPayload ctxEx).body.serviceAddress = some "https://svc" ∧
    (initializeContextPayload ctxEx).body.params = [] ∧
    (initializeContextPayload ctxEx).body.authTokenRetriever = "token-fn" ∧
    (initializeContextPayload ctxEx).body.actionSubject = "page-ctx" ∧
    (initializeContextPayload ctxEx).body.userContext.userProxyKey = some "up-key" ∧
    (∀ c', c'.session = none → initializeContextPayload c'
      = ⟨⟨c'.authTokenRetriever, none, c'.serviceAddress, c'.pageContext,
          ⟨none, none, none, none, none, none⟩, []⟩⟩) ∧
    (s.sandbox = none → (initializeContextPayload c).body.sandboxKey = none) ∧
    (s.userProxy = none → (initializeContextPayload c).body.userContext.userProxy = none ∧
      (initializeContextPayload c).body.userContext.userProxyKey = none) ∧
    (s.user = none → (initializeContextPayload c).body.userContext.user = none) := by
  refine ⟨rfl, by simp [initializeContext], by decide, by decide, by decide, by decide,
    by decide, by decide, by decide, ?_, ?_, ?_, ?_⟩
  · intro c' h
    simp [initializeContextPayload, h]
  · intro h
    simp [initializeContextPayload, hsess, h]
  · intro h
    constructor <;> simp [initializeContextPayload, hsess, h]
  · intro h
    simp [initializeContextPayload, hsess, h]

/-- Witness for C7's theorem at the spec's scenario context. -/
theorem initializeContext_payload_w :
    initializeContext ctxEx "sdk-1" []
      = [] ++ [("sdk-1", initializeContextPayload ctxEx)] ∧
    (initializeContextPayload ctxEx).body.sandboxKey = some "sbx1" :=
  ⟨(initializeContext_payload ctxEx "sdk-1" [] sessionEx rfl).1,
   (initializeContext_payload ctxEx "sdk-1" [] sessionEx rfl).2.2.1⟩

/-- Claim C10: the protected `initializeContext` method stores the SDK instance
in `hx`, delegates to the module-level initializer with exactly the given
context and SDK instance, and modifies no other instance state. -/
theorem initializeContext_method_stores_sdk (el : HalixElement) (c : ContextModel)
    (sdk : String) (calls : List (String × InitPayload)) :
    (el.initializeContext c sdk calls).1.hx = some sdk ∧
    (el.initializeContext c sdk calls).2 = initializeContext c sdk calls ∧
    (el.initializeContext c sdk calls).1._context = el._context ∧
    (el.initializeContext c sdk calls).1.appliedCssUrls = el.appliedCssUrls ∧
    (el.initializeContext c sdk calls).1.adoptedSheets = el.adoptedSheets ∧
    (el.initializeContext c sdk calls).1.styleChildren = el.styleChildren := by
  refine ⟨rfl, rfl, rfl, rfl, rfl, rfl⟩

/-! ### Claims C3, C8, C9 -/

theorem setContext_fst (el : HalixElement) (val : Option ContextModel) :
    (setContext el val).1 = { el with _context := val } := by
  unfold setContext
  split
  · split <;> rfl
  · rfl

theorem setContext_snd_not_ready (el : HalixElement) (val : Option ContextModel)
    (h : contextReady val = false) : (setContext el val).2 = [] := by
  unfold setContext
  simp [h]

theorem setContext_snd_ready (el : HalixElement) (c : ContextModel)
    (h : contextReady (some c) = true) :
    (setContext el (some c)).2
      = [SetterEvent.hookCalled c, SetterEvent.updateRequested el._context] := by
  unfold setContext
  simp [h]

/-- Claim C3 is refuted on the code: assigning a ready context makes the setter
invoke only the `onContextAvailable` hook and then `requestUpdate` — the call
list contains no invocation of the Context Initializer (the source delegates
that call to the subclass's hook implementation). -/
theorem context_setter_initializer_ctrex :
    (setContext freshElement (some ctxEx)).2
      = [SetterEvent.hookCalled ctxEx, SetterEvent.updateRequested none] ∧
    ((setContext freshElement (some ctxEx)).2.any isSdkInitEvent) = false := by
  decide

/-- Claim C3 (amended): the setter always stores the new context; when the new
context's session organization-proxy key is non-empty it synchronously invokes
the `onContextAvailable` hook with the new context and then notifies the
framework of the property change — it does not itself invoke the Context
Initializer (subclasses are expected to call it from the hook); when the key
is empty or absent it only replaces the stored context.  A later assignment of
a ready context after a not-ready one invokes the hook exactly once for that
transition. -/
theorem context_setter_behavior :
    (∀ (el : HalixElement) (val : Option ContextModel),
      (setContext el val).1._context = val ∧
      (setContext el val).1.hx = el.hx ∧
      (setContext el val).1.appliedCssUrls = el.appliedCssUrls ∧
      (setContext el val).1.adoptedSheets = el.adoptedSheets ∧
      (setContext el val).1.styleChildren = el.styleChildren) ∧
    (∀ (el : HalixElement) (val : Option ContextModel), contextReady val = false →
      (setContext el val).2 = []) ∧
    (∀ (el : HalixElement) (c : ContextModel), contextReady (some c) = true →
      (setContext el (some c)).2
        = [SetterEvent.hookCalled c, SetterEvent.updateRequested el._context]) ∧
    (∀ (el : HalixElement) (c1 c2 : ContextModel),
      contextReady (some c1) = false → contextReady (some c2) = true →
      (setContext el (some c1)).2 = [] ∧
      (setContext (setContext el (some c1)).1 (some c2)).2
        = [SetterEvent.hookCalled c2, SetterEvent.updateRequested (some c1)] ∧
      ((setContext el (some c1)).2
          ++ (setContext (setContext el (some c1)).1 (some c2)).2).count
        (SetterEvent.hookCalled c2) = 1) := by
  refine ⟨fun el val => by simp [setContext_fst], setContext_snd_not_ready,
    setContext_snd_ready, fun el c1 c2 h1 h2 => ?_⟩
  have e1 := setContext_snd_not_ready el (some c1) h1
  have e2 := setContext_snd_ready { el with _context := some c1 } c2 h2
  rw [show ({ el with _context := some c1 } : HalixElement)._context = some c1 from rfl] at e2
  rw [setContext_fst el (some c1)]
  refine ⟨e1, e2, ?_⟩
  rw [e1, e2]
  simp [List.count_cons]

/-- Witness for C3's amended theorem: assigning the not-ready context and then
the ready one fires the hook exactly once, on the second assignment. -/
theorem context_setter_behavior_w :
    (setContext freshElement (some notReadyCtx)).2 = [] ∧
    (setContext (setContext freshElement (some notReadyCtx)).1 (some ctxEx)).2
      = [SetterEvent.hookCalled ctxEx, SetterEvent.updateRequested (some notReadyCtx)] :=
  ⟨(context_setter_behavior.2.2.2 freshElement notReadyCtx ctxEx (by decide) (by decide)).1,
   (context_setter_behavior.2.2.2 freshElement notReadyCtx ctxEx (by decide) (by decide)).2.1⟩

/-- Claim C8 is refuted on the code: `addStylesheet` itself performs no
falsy/non-string check, so calling it directly with the empty string marks the
empty string as applied, performs a network retrieval, and injects the fetched
text — it is not a no-op. -/
theorem addStylesheet_falsy_noop_ctrex :
    (addStylesheet false respA ⟨[], []⟩ freshElement "").elem.appliedCssUrls = [""] ∧
    (addStylesheet false respA ⟨[], []⟩ freshElement "").fetches = 1 ∧
    (addStylesheet false respA ⟨[], []⟩ freshElement "").elem ≠ freshElement ∧
    (addStylesheet false respA ⟨[], []⟩ freshElement "").elem.styleChildren = ["css-a"] := by
  decide

/-- Claim C8 (amended): the falsy/non-string guard lives in `addStylesheets`,
which skips such entries with no effect whatsoever; `addStylesheet` itself
resolves immediately with no effect only when the URL is already in the
instance's applied-URL set. -/
theorem addStylesheets_skips_invalid :
    (∀ (supports : Bool) (network : String → FetchResponse) (shared : StyleShared)
        (el : HalixElement) (rest : List UrlArg),
      addStylesheets supports network shared el (UrlArg.notAString :: rest)
        = addStylesheets supports network shared el rest) ∧
    (∀ (supports : Bool) (network : String → FetchResponse) (shared : StyleShared)
        (el : HalixElement) (rest : List UrlArg),
      addStylesheets supports network shared el (UrlArg.str "" :: rest)
        = addStylesheets supports network shared el rest) ∧
    (∀ (supports : Bool) (response : FetchResponse) (shared : StyleShared)
        (el : HalixElement) (url : String), url ∈ el.appliedCssUrls →
      addStylesheet supports response shared el url
        = ⟨Except.ok (), shared, el, [], 0⟩) := by
  refine ⟨fun supports network shared el rest => rfl,
    fun supports network shared el rest => by simp [addStylesheets],
    fun supports response shared el url h => by simp [addStylesheet, h]⟩

/-- Witness for C8's amended theorem: a repeated URL makes `addStylesheet` a
no-op on a concrete element that has already applied it. -/
theorem addStylesheets_skips_invalid_w :
    addStylesheet false respA ⟨[], []⟩ { freshElement with appliedCssUrls := ["a"] } "a"
      = ⟨Except.ok (), ⟨[], []⟩, { freshElement with appliedCssUrls := ["a"] }, [], 0⟩ :=
  addStylesheets_skips_invalid.2.2 false respA ⟨[], []⟩
    { freshElement with appliedCssUrls := ["a"] } "a" (by decide)

/-- Claim C9: when the fetch for a URL fails, `addStylesheet` logs the failure
and re-raises it, the render root is untouched, the URL stays in the
instance's applied-URL set, and a later call with the same URL from the same
instance resolves as a no-op instead of retrying. -/
theorem addStylesheet_failure_marks_applied (supports : Bool)
    (response r2 : FetchResponse) (shared : StyleShared) (el : HalixElement)
    (url : String) (hmem : url ∉ el.appliedCssUrls)
    (hcache : shared.cssTextCache.lookup url = none) (hfail : response.ok = false) :
    (addStylesheet supports response shared el url).result
      = Except.error (cssErrorMsg url response.status response.statusText) ∧
    (addStylesheet supports response shared el url).log
      = [addStyleLogMsg url (cssErrorMsg url response.status response.statusText)] ∧
    (addStylesheet supports response shared el url).elem.appliedCssUrls
      = el.appliedCssUrls ++ [url] ∧
    (addStylesheet supports response shared el url).elem.adoptedSheets
      = el.adoptedSheets ∧
    (addStylesheet supports response shared el url).elem.styleChildren
      = el.styleChildren ∧
    (addStylesheet supports response shared el url).shared = shared ∧
    addStylesheet supports r2 (addStylesheet supports response shared el url).shared
        (addStylesheet supports response shared el url).elem url
      = ⟨Except.ok (), (addStylesheet supports response shared el url).shared,
          (addStylesheet supports response shared el url).elem, [], 0⟩ := by
  have hstep : addStylesheet supports response shared el url
      = ⟨Except.error (cssErrorMsg url response.status response.statusText), shared,
          { el with appliedCssUrls := el.appliedCssUrls ++ [url] },
          [addStyleLogMsg url (cssErrorMsg url response.status response.statusText)], 1⟩ := by
    simp [addStylesheet, hmem, fetchCssSeq_miss_fail response url shared.cssTextCache hcache hfail]
  rw [hstep]
  have hmem2 : url ∈ el.appliedCssUrls ++ [url] := by simp
  refine ⟨rfl, rfl, rfl, rfl, rfl, rfl, by simp [addStylesheet, hmem2]⟩

/-- Witness for C9's theorem: a fresh element, an empty cache and a 404
response for a concrete URL. -/
theorem addStylesheet_failure_marks_applied_w :
    (addStylesheet false resp404 ⟨[], []⟩ freshElement "a").result
      = Except.error (cssErrorMsg "a" resp404.status resp404.statusText) ∧
    (addStylesheet false resp404 ⟨[], []⟩ freshElement "a").elem.appliedCssUrls = [] ++ ["a"] ∧
    addStylesheet false respA (addStylesheet false resp404 ⟨[], []⟩ freshElement "a").shared
        (addStylesheet false resp404 ⟨[], []⟩ freshElement "a").elem "a"
      = ⟨Except.ok (), (addStylesheet false resp404 ⟨[], []⟩ freshElement "a").shared,
          (addStylesheet false resp404 ⟨[], []⟩ freshElement "a").elem, [], 0⟩ :=
  ⟨(addStylesheet_failure_marks_applied false resp404 respA ⟨[], []⟩ freshElement "a"
      (by decide) (by decide) (by decide)).1,
   (addStylesheet_failure_marks_applied false resp404 respA ⟨[], []⟩ freshElement "a"
      (by decide) (by decide) (by decide)).2.2.1,
   (addStylesheet_failure_marks_applied false resp404 respA ⟨[], []⟩ freshElement "a"
      (by decide) (by decide) (by decide)).2.2.2.2.2.2⟩

/-! ### Helper lemmas for `addStylesheet` runs -/

theorem addStylesheet_fresh_fallback (response : FetchResponse) (shared : StyleShared)
    (el : HalixElement) (url : String) (hmem : url ∉ el.appliedCssUrls)
    (hcache : shared.cssTextCache.lookup url = none) (hok : response.ok = true) :
    addStylesheet false response shared el url
      = ⟨Except.ok (), ⟨(url, response.body) :: shared.cssTextCache, shared.sheetCache⟩,
          { el with appliedCssUrls := el.appliedCssUrls ++ [url],
                    styleChildren := el.styleChildren ++ [response.body] }, [], 1⟩ := by
  simp [addStylesheet, hmem,
    fetchCssSeq_miss_ok response url shared.cssTextCache hcache hok]

theorem addStylesheet_fresh_adopted (response : FetchResponse) (shared : StyleShared)
    (el : HalixElement) (url : String) (hmem : url ∉ el.appliedCssUrls)
    (hcache : shared.cssTextCache.lookup url = none)
    (hsheet : shared.sheetCache.lookup url = none) (hok : response.ok = true) :
    addStylesheet true response shared el url
      = ⟨Except.ok (), ⟨(url, response.body) :: shared.cssTextCache,
            (url, response.body) :: shared.sheetCache⟩,
          { el with appliedCssUrls := el.appliedCssUrls ++ [url],
                    adoptedSheets := el.adoptedSheets ++ [response.body] }, [], 1⟩ := by
  simp [addStylesheet, hmem,
    fetchCssSeq_miss_ok response url shared.cssTextCache hcache hok, hsheet]

theorem addStylesheet_fresh_fail (supports : Bool) (response : FetchResponse)
    (shared : StyleShared) (el : HalixElement) (url : String)
    (hmem : url ∉ el.appliedCssUrls)
    (hcache : shared.cssTextCache.lookup url = none) (hfail : response.ok = false) :
    addStylesheet supports response shared el url
      = ⟨Except.error (cssErrorMsg url response.status response.statusText), shared,
          { el with appliedCssUrls := el.appliedCssUrls ++ [url] },
          [addStyleLogMsg url (cssErrorMsg url response.status response.statusText)], 1⟩ := by
  simp [addStylesheet, hmem,
    fetchCssSeq_miss_fail response url shared.cssTextCache hcache hfail]

theorem addStylesheets_all_ok (supports : Bool) (network : String → FetchResponse) :
    ∀ (urls : List String) (shared : StyleShared) (el : HalixElement),
    urls.Nodup → (∀ u ∈ urls, u ≠ "") →
    (∀ u ∈ urls, u ∉ el.appliedCssUrls) →
    (∀ u ∈ urls, shared.cssTextCache.lookup u = none) →
    (∀ u ∈ urls, shared.sheetCache.lookup u = none) →
    (∀ u ∈ urls, (network u).ok = true) →
    (addStylesheets supports network shared el (urls.map UrlArg.str)).result
      = Except.ok () ∧
    (addStylesheets supports network shared el (urls.map UrlArg.str)).elem.appliedCssUrls
      = el.appliedCssUrls ++ urls ∧
    (addStylesheets supports network shared el (urls.map UrlArg.str)).elem.adoptedSheets
      = el.adoptedSheets ++ (if supports then urls.map (fun u => (network u).body) else []) ∧
    (addStylesheets supports network shared el (urls.map UrlArg.str)).elem.styleChildren
      = el.styleChildren ++ (if supports then [] else urls.map (fun u => (network u).body)) ∧
    (addStylesheets supports network shared el (urls.map UrlArg.str)).log = [] ∧
    (addStylesheets supports network shared el (urls.map UrlArg.str)).fetches
      = urls.length := by
  intro urls
  induction urls with
  | nil =>
    intro shared el _ _ _ _ _ _
    constructor <;> simp [addStylesheets]
  | cons u rest ih =>
    intro shared el hnodup hne hmem hctc hsheet hok
    have hu : u ≠ "" := hne u (by simp)
    have huBeq : (u == "") = false := beq_eq_false_iff_ne.mpr hu
    have hunotrest : u ∉ rest := (List.nodup_cons.mp hnodup).1
    have hrestnodup : rest.Nodup := (List.nodup_cons.mp hnodup).2
    have hvne : ∀ v ∈ rest, v ≠ u := fun v hv => by
      intro h
      exact hunotrest (h ▸ hv)
    cases supports with
    | false =>
      have hstep := addStylesheet_fresh_fallback (network u) shared el u
        (hmem u (by simp)) (hctc u (by simp)) (hok u (by simp))
      obtain ⟨ih1, ih2, ih3, ih4, ih5, ih6⟩ :=
        ih ⟨(u, (network u).body) :: shared.cssTextCache, shared.sheetCache⟩
          { el with appliedCssUrls := el.appliedCssUrls ++ [u],
                    styleChildren := el.styleChildren ++ [(network u).body] }
          hrestnodup
          (fun v hv => hne v (by simp [hv]))
          (fun v hv => by
            simp only [List.mem_append, List.mem_singleton]
            rintro (h | h)
            · exact hmem v (by simp [hv]) h
            · exact hvne v hv h)
          (fun v hv => by
            rw [lookup_cons_ne u v (network u).body shared.cssTextCache (hvne v hv)]
            exact hctc v (by simp [hv]))
          (fun v hv => hsheet v (by simp [hv]))
          (fun v hv => hok v (by simp [hv]))
      refine ⟨?_, ?_, ?_, ?_, ?_, ?_⟩ <;>
        simp [addStylesheets, huBeq, hstep, ih1, ih2, ih3, ih4, ih5, ih6] <;> omega
    | true =>
      have hstep := addStylesheet_fresh_adopted (network u) shared el u
        (hmem u (by simp)) (hctc u (by simp)) (hsheet u (by simp)) (hok u (by simp))
      obtain ⟨ih1, ih2, ih3, ih4, ih5, ih6⟩ :=
        ih ⟨(u, (network u).body) :: shared.cssTextCache,
            (u, (network u).body) :: shared.sheetCache⟩
          { el with appliedCssUrls := el.appliedCssUrls ++ [u],
                    adoptedSheets := el.adoptedSheets ++ [(network u).body] }
          hrestnodup
          (fun v hv => hne v (by simp [hv]))
          (fun v hv => by
            simp only [List.mem_append, List.mem_singleton]
            rintro (h | h)
            · exact hmem v (by simp [hv]) h
            · exact hvne v hv h)
          (fun v hv => by
            rw [lookup_cons_ne u v (network u).body shared.cssTextCache (hvne v hv)]
            exact hctc v (by simp [hv]))
          (fun v hv => by
            rw [lookup_cons_ne u v (network u).body shared.sheetCache (hvne v hv)]
            exact hsheet v (by simp [hv]))
          (fun v hv => hok v (by simp [hv]))
      refine ⟨?_, ?_, ?_, ?_, ?_, ?_⟩ <;>
        simp [addStylesheets, huBeq, hstep, ih1, ih2, ih3, ih4, ih5, ih6] <;> omega

theorem addStylesheets_abort (supports : Bool) (network : String → FetchResponse) :
    ∀ (us : List String) (b : String) (vs : List UrlArg) (shared : StyleShared)
      (el : HalixElement),
    (us ++ [b]).Nodup → (∀ u ∈ us ++ [b], u ≠ "") →
    (∀ u ∈ us ++ [b], u ∉ el.appliedCssUrls) →
    (∀ u ∈ us ++ [b], shared.cssTextCache.lookup u = none) →
    (∀ u ∈ us, shared.sheetCache.lookup u = none) →
    (∀ u ∈ us, (network u).ok = true) →
    (network b).ok = false →
    (addStylesheets supports network shared el
        (us.map UrlArg.str ++ UrlArg.str b :: vs)).result
      = Except.error (cssErrorMsg b (network b).status (network b).statusText) ∧
    (addStylesheets supports network shared el
        (us.map UrlArg.str ++ UrlArg.str b :: vs)).elem.appliedCssUrls
      = el.appliedCssUrls ++ us ++ [b] ∧
    (addStylesheets supports network shared el
        (us.map UrlArg.str ++ UrlArg.str b :: vs)).elem.adoptedSheets
      = el.adoptedSheets ++ (if supports then us.map (fun u => (network u).body) else []) ∧
    (addStylesheets supports network shared el
        (us.map UrlArg.str ++ UrlArg.str b :: vs)).elem.styleChildren
      = el.styleChildren ++ (if supports then [] else us.map (fun u => (network u).body)) ∧
    (addStylesheets supports network shared el
        (us.map UrlArg.str ++ UrlArg.str b :: vs)).log
      = [addStyleLogMsg b (cssErrorMsg b (network b).status (network b).statusText)] ∧
    (addStylesheets supports network shared el
        (us.map UrlArg.str ++ UrlArg.str b :: vs)).fetches = us.length + 1 := by
  intro us
  induction us with
  | nil =>
    intro b vs shared el hnodup hne hmem hctc _ _ hbfail
    have hb : b ≠ "" := hne b (by simp)
    have hbBeq : (b == "") = false := beq_eq_false_iff_ne.mpr hb
    have hstep := addStylesheet_fresh_fail supports (network b) shared el b
      (hmem b (by simp)) (hctc b (by simp)) hbfail
    refine ⟨?_, ?_, ?_, ?_, ?_, ?_⟩ <;>
      simp [addStylesheets, hbBeq, hstep]
  | cons u us ih =>
    intro b vs shared el hnodup hne hmem hctc hsheet hok hbfail
    simp only [List.cons_append] at hnodup hne hmem hctc
    have hu : u ≠ "" := hne u (by simp)
    have huBeq : (u == "") = false := beq_eq_false_iff_ne.mpr hu
    have hunot : u ∉ us ++ [b] := (List.nodup_cons.mp hnodup).1
    have hrest : (us ++ [b]).Nodup := (List.nodup_cons.mp hnodup).2
    have hvne : ∀ v ∈ us ++ [b], v ≠ u := fun v hv h => hunot (h ▸ hv)
    cases supports with
    | false =>
      have hstep := addStylesheet_fresh_fallback (network u) shared el u
        (hmem u (by simp)) (hctc u (by simp)) (hok u (by simp))
      obtain ⟨ih1, ih2, ih3, ih4, ih5, ih6⟩ :=
        ih b vs ⟨(u, (network u).body) :: shared.cssTextCache, shared.sheetCache⟩
          { el with appliedCssUrls := el.appliedCssUrls ++ [u],
                    styleChildren := el.styleChildren ++ [(network u).body] }
          hrest
          (fun v hv => hne v (by simp [hv]))
          (fun v hv => by
            simp only [List.mem_append, List.mem_singleton]
            rintro (h | h)
            · exact hmem v (by simp [hv]) h
            · exact hvne v hv h)
          (fun v hv => by
            rw [lookup_cons_ne u v (network u).body shared.cssTextCache (hvne v hv)]
            exact hctc v (by simp [hv]))
          (fun v hv => hsheet v (by simp [hv]))
          (fun v hv => hok v (by simp [hv]))
          hbfail
      refine ⟨?_, ?_, ?_, ?_, ?_, ?_⟩ <;>
        simp [addStylesheets, huBeq, hstep, ih1, ih2, ih3, ih4, ih5, ih6] <;> omega
    | true =>
      have hstep := addStylesheet_fresh_adopted (network u) shared el u
        (hmem u (by simp)) (hctc u (by simp)) (hsheet u (by simp)) (hok u (by simp))
      obtain ⟨ih1, ih2, ih3, ih4, ih5, ih6⟩ :=
        ih b vs ⟨(u, (network u).body) :: shared.cssTextCache,
            (u, (network u).body) :: shared.sheetCache⟩
          { el with appliedCssUrls := el.appliedCssUrls ++ [u],
                    adoptedSheets := el.adoptedSheets ++ [(network u).body] }
          hrest
          (fun v hv => hne v (by simp [hv]))
          (fun v hv => by
            simp only [List.mem_append, List.mem_singleton]
            rintro (h | h)
            · exact hmem v (by simp [hv]) h
            · exact hvne v hv h)
          (fun v hv => by
            rw [lookup_cons_ne u v (network u).body shared.cssTextCache (hvne v hv)]
            exact hctc v (by simp [hv]))
          (fun v hv => by
            rw [lookup_cons_ne u v (network u).body shared.sheetCache
              (hvne v (by simp [hv]))]
            exact hsheet v (by simp [hv]))
          (fun v hv => hok v (by simp [hv]))
          hbfail
      refine ⟨?_, ?_, ?_, ?_, ?_, ?_⟩ <;>
        simp [addStylesheets, huBeq, hstep, ih1, ih2, ih3, ih4, ih5, ih6] <;> omega

/-! ### Claim C4 -/

/-- Claim C4: `addStylesheets` applies the URLs strictly in array order,
awaiting each application before starting the next (the applied-URL list and
the render root grow in exactly array order); if applying some element fails,
no later element is applied and the error propagates to the caller. -/
theorem addStylesheets_serial_order :
    (∀ (supports : Bool) (network : String → FetchResponse) (urls : List String)
        (shared : StyleShared) (el : HalixElement),
      urls.Nodup → (∀ u ∈ urls, u ≠ "") →
      (∀ u ∈ urls, u ∉ el.appliedCssUrls) →
      (∀ u ∈ urls, shared.cssTextCache.lookup u = none) →
      (∀ u ∈ urls, shared.sheetCache.lookup u = none) →
      (∀ u ∈ urls, (network u).ok = true) →
      (addStylesheets supports network shared el (urls.map UrlArg.str)).result
        = Except.ok () ∧
      (addStylesheets supports network shared el (urls.map UrlArg.str)).elem.appliedCssUrls
        = el.appliedCssUrls ++ urls ∧
      (addStylesheets supports network shared el (urls.map UrlArg.str)).elem.adoptedSheets
        = el.adoptedSheets ++ (if supports then urls.map (fun u => (network u).body) else []) ∧
      (addStylesheets supports network shared el (urls.map UrlArg.str)).elem.styleChildren
        = el.styleChildren ++ (if supports then [] else urls.map (fun u => (network u).body))) ∧
    (∀ (supports : Bool) (network : String → FetchResponse) (us : List String)
        (b : String) (vs : List UrlArg) (shared : StyleShared) (el : HalixElement),
      (us ++ [b]).Nodup → (∀ u ∈ us ++ [b], u ≠ "") →
      (∀ u ∈ us ++ [b], u ∉ el.appliedCssUrls) →
      (∀ u ∈ us ++ [b], shared.cssTextCache.lookup u = none) →
      (∀ u ∈ us, shared.sheetCache.lookup u = none) →
      (∀ u ∈ us, (network u).ok = true) →
      (network b).ok = false →
      (addStylesheets supports network shared el
          (us.map UrlArg.str ++ UrlArg.str b :: vs)).result
        = Except.error (cssErrorMsg b (network b).status (network b).statusText) ∧
      (addStylesheets supports network shared el
          (us.map UrlArg.str ++ UrlArg.str b :: vs)).elem.appliedCssUrls
        = el.appliedCssUrls ++ us ++ [b] ∧
      (addStylesheets supports network shared el
          (us.map UrlArg.str ++ UrlArg.str b :: vs)).elem.adoptedSheets
        = el.adoptedSheets ++ (if supports then us.map (fun u => (network u).body) else []) ∧
      (addStylesheets supports network shared el
          (us.map UrlArg.str ++ UrlArg.str b :: vs)).elem.styleChildren
        = el.styleChildren ++ (if supports then [] else us.map (fun u => (network u).body))) := by
  constructor
  · intro supports network urls shared el h1 h2 h3 h4 h5 h6
    obtain ⟨c1, c2, c3, c4, _, _⟩ :=
      addStylesheets_all_ok supports network urls shared el h1 h2 h3 h4 h5 h6
    exact ⟨c1, c2, c3, c4⟩
  · intro supports network us b vs shared el h1 h2 h3 h4 h5 h6 h7
    obtain ⟨c1, c2, c3, c4, _, _⟩ :=
      addStylesheets_abort supports network us b vs shared el h1 h2 h3 h4 h5 h6 h7
    exact ⟨c1, c2, c3, c4⟩

/-- Witness for C4's theorem at the spec's `[a, b, c]` scenario: with a network
where `b` 404s and everything else succeeds, `[x, y]` applies in order, and
`[a, b, c]` applies `a`, fails on `b` with `b`'s error, and never applies `c`. -/
theorem addStylesheets_serial_order_w :
    (addStylesheets false
        (fun u => if u = "b" then resp404
          else { ok := true, status := 200, statusText := "OK", body := "css-" ++ u })
        ⟨[], []⟩ freshElement (["x", "y"].map UrlArg.str)).elem.styleChildren
      = freshElement.styleChildren
          ++ (if false then []
              else ["x", "y"].map (fun u =>
                ((fun u => if u = "b" then resp404
                  else { ok := true, status := 200, statusText := "OK",
                         body := "css-" ++ u }) u).body)) ∧
    (addStylesheets false
        (fun u => if u = "b" then resp404
          else { ok := true, status := 200, statusText := "OK", body := "css-" ++ u })
        ⟨[], []⟩ freshElement (["a"].map UrlArg.str ++ UrlArg.str "b" :: [UrlArg.str "c"])).result
      = Except.error (cssErrorMsg "b"
          ((fun u => if u = "b" then resp404
            else { ok := true, status := 200, statusText := "OK", body := "css-" ++ u }) "b").status
          ((fun u => if u = "b" then resp404
            else { ok := true, status := 200, statusText := "OK", body := "css-" ++ u }) "b").statusText) ∧
    (addStylesheets false
        (fun u => if u = "b" then resp404
          else { ok := true, status := 200, statusText := "OK", body := "css-" ++ u })
        ⟨[], []⟩ freshElement (["a"].map UrlArg.str ++ UrlArg.str "b" :: [UrlArg.str "c"])).elem.appliedCssUrls
      = freshElement.appliedCssUrls ++ ["a"] ++ ["b"] :=
  ⟨((addStylesheets_serial_order.1 false
      (fun u => if u = "b" then resp404
        else { ok := true, status := 200, statusText := "OK", body := "css-" ++ u })
      ["x", "y"] ⟨[], []⟩ freshElement (by decide) (by decide) (by decide) (by decide)
      (by decide) (by decide)).2.2.2),
   ((addStylesheets_serial_order.2 false
      (fun u => if u = "b" then resp404
        else { ok := true, status := 200, statusText := "OK", body := "css-" ++ u })
      ["a"] "b" [UrlArg.str "c"] ⟨[], []⟩ freshElement (by decide) (by decide) (by decide)
      (by decide) (by decide) (by decide) (by decide)).1),
   ((addStylesheets_serial_order.2 false
      (fun u => if u = "b" then resp404
        else { ok := true, status := 200, statusText := "OK", body := "css-" ++ u })
      ["a"] "b" [UrlArg.str "c"] ⟨[], []⟩ freshElement (by decide) (by decide) (by decide)
      (by decide) (by decide) (by decide) (by decide)).2.1)⟩

/-! ### Claim C5 -/

theorem sInv_step (s : SState) (e : SEvent) (h : sInv s) : sInv (sStep s e) := by
  obtain ⟨h1, h2⟩ := h
  cases e <;> cases ht1 : s.t1 <;> cases ht2 : s.t2 <;> cases ha : s.applied <;>
    simp_all [sStep, sInv] <;> omega

theorem sInv_run (evs : List SEvent) : ∀ s, sInv s → sInv (sRun s evs) := by
  induction evs with
  | nil => intro s h; exact h
  | cons e evs ih => intro s h; exact ih (sStep s e) (sInv_step s e h)

theorem sRun_done_rootCount (evs : List SEvent)
    (h1 : (sRun sInit evs).t1 = SPhase.done)
    (h2 : (sRun sInit evs).t2 = SPhase.done) :
    (sRun sInit evs).rootCount = 1 := by
  obtain ⟨ha, hb⟩ := sInv_run evs sInit (by constructor <;> simp [sInit])
  rw [h1, h2] at ha
  simp at ha
  cases hap : (sRun sInit evs).applied with
  | true => rw [hap] at ha; simpa using ha
  | false =>
    obtain ⟨hi, _, _⟩ := hb hap
    rw [h1] at hi
    cases hi

/-- Claim C5: for one component instance and one URL, running `addStylesheet`
twice with the same URL makes the render root gain the style exactly once: the
URL is added to the applied-URL set before the fetch completes, so the second
call resolves as a no-op.  The first part covers two complete sequential runs;
the second part covers every interleaving of two concurrent calls on the
small-step machine (both calls having completed). -/
theorem addStylesheet_applies_once :
    (∀ (supports : Bool) (response : FetchResponse) (shared : StyleShared)
        (el : HalixElement) (url : String),
      url ∉ el.appliedCssUrls → shared.cssTextCache.lookup url = none →
      shared.sheetCache.lookup url = none → response.ok = true →
      addStylesheet supports response
          (addStylesheet supports response shared el url).shared
          (addStylesheet supports response shared el url).elem url
        = ⟨Except.ok (), (addStylesheet supports response shared el url).shared,
            (addStylesheet supports response shared el url).elem, [], 0⟩ ∧
      (addStylesheet supports response shared el url).elem.adoptedSheets
        = el.adoptedSheets ++ (if supports then [response.body] else []) ∧
      (addStylesheet supports response shared el url).elem.styleChildren
        = el.styleChildren ++ (if supports then [] else [response.body]) ∧
      (addStylesheet supports response shared el url).elem.appliedCssUrls
        = el.appliedCssUrls ++ [url]) ∧
    (∀ evs : List SEvent, (sRun sInit evs).t1 = SPhase.done →
      (sRun sInit evs).t2 = SPhase.done → (sRun sInit evs).rootCount = 1) := by
  constructor
  · intro supports response shared el url hmem hctc hsheet hok
    have hmem2 : url ∈ el.appliedCssUrls ++ [url] := by simp
    cases supports with
    | false =>
      rw [addStylesheet_fresh_fallback response shared el url hmem hctc hok]
      exact ⟨by simp [addStylesheet, hmem2], by simp, by simp, rfl⟩
    | true =>
      rw [addStylesheet_fresh_adopted response shared el url hmem hctc hsheet hok]
      exact ⟨by simp [addStylesheet, hmem2], by simp, by simp, rfl⟩
  · exact sRun_done_rootCount

/-- Witness for C5's theorem: a concrete second sequential call is a no-op, and
the fully interleaved concurrent schedule (both calls start before either
fetch resolves) appends the style exactly once. -/
theorem addStylesheet_applies_once_w :
    addStylesheet false respA
        (addStylesheet false respA ⟨[], []⟩ freshElement "a").shared
        (addStylesheet false respA ⟨[], []⟩ freshElement "a").elem "a"
      = ⟨Except.ok (), (addStylesheet false respA ⟨[], []⟩ freshElement "a").shared,
          (addStylesheet false respA ⟨[], []⟩ freshElement "a").elem, [], 0⟩ ∧
    (addStylesheet false respA ⟨[], []⟩ freshElement "a").elem.styleChildren
      = freshElement.styleChildren ++ (if false then [] else [respA.body]) ∧
    (sRun sInit [SEvent.start1, SEvent.start2, SEvent.fin1, SEvent.fin2]).rootCount = 1 :=
  ⟨(addStylesheet_applies_once.1 false respA ⟨[], []⟩ freshElement "a"
      (by decide) (by decide) (by decide) (by decide)).1,
   (addStylesheet_applies_once.1 false respA ⟨[], []⟩ freshElement "a"
      (by decide) (by decide) (by decide) (by decide)).2.2.1,
   addStylesheet_applies_once.2 [SEvent.start1, SEvent.start2, SEvent.fin1, SEvent.fin2]
      (by decide) (by decide)⟩

/-! ### Claim C2: in-flight de-duplication of concurrent `fetchCss` calls -/

theorem fStep_start_join (s : FProc) (k pid : Nat) (h1 : s.tasks k = FTask.notStarted)
    (h2 : s.inflight = some pid) :
    fStep s (FEvent.start k)
      = { s with tasks := fun j => if j = k then FTask.awaiting pid false else s.tasks j } := by
  simp [fStep, h1, h2]

theorem fStep_start_fresh (s : FProc) (k : Nat) (h1 : s.tasks k = FTask.notStarted)
    (h2 : s.inflight = none) (h3 : s.cache = none) :
    fStep s (FEvent.start k)
      = { s with promCount := s.promCount + 1
                 proms := fun p => if p = s.promCount then Prom.pending else s.proms p
                 inflight := some s.promCount
                 fetchCount := s.fetchCount + 1
                 tasks := fun j => if j = k then FTask.awaiting s.promCount true else s.tasks j } := by
  simp [fStep, h1, h2, h3]

theorem fStep_start_skip (s : FProc) (k : Nat) (h1 : s.tasks k ≠ FTask.notStarted) :
    fStep s (FEvent.start k) = s := by
  cases htk : s.tasks k with
  | notStarted => exact absurd htk h1
  | awaiting pid c => simp [fStep, htk]
  | done o => simp [fStep, htk]

theorem fStep_settle_pending (s : FProc) (pid : Nat) (o : FOutcome)
    (h1 : pid < s.promCount) (h2 : s.proms pid = Prom.pending) :
    fStep s (FEvent.settle pid o)
      = { s with proms := fun p => if p = pid then Prom.settled o else s.proms p
                 cache := match o with | .ok t => some t | .fail _ _ => s.cache } := by
  simp [fStep, h1, h2]

theorem fStep_resume_settled (s : FProc) (k pid : Nat) (c : Bool) (o : FOutcome)
    (h1 : s.tasks k = FTask.awaiting pid c) (h2 : s.proms pid = Prom.settled o) :
    fStep s (FEvent.resume k)
      = { s with tasks := fun j => if j = k then FTask.done o else s.tasks j
                 inflight := if c then none else s.inflight } := by
  simp [fStep, h1, h2]

theorem fStep_resume_skip_ns (s : FProc) (k : Nat) (h1 : s.tasks k = FTask.notStarted) :
    fStep s (FEvent.resume k) = s := by
  simp [fStep, h1]

theorem fStep_resume_skip_done (s : FProc) (k : Nat) (o : FOutcome)
    (h1 : s.tasks k = FTask.done o) :
    fStep s (FEvent.resume k) = s := by
  simp [fStep, h1]

theorem fStep_start_fInit (n k : Nat) (hk : k < n) :
    fInv1 n (fStep fInit (FEvent.start k)) := by
  rw [fStep_start_fresh fInit k rfl rfl rfl]
  refine ⟨rfl, rfl, rfl, by simp [fInit], rfl, ⟨k, hk, by simp [fInit]⟩, ?_, ?_⟩
  · intro i
    by_cases hik : i = k
    · subst hik
      right
      exact ⟨true, by simp [fInit]⟩
    · left
      simp [fInit, hik]
  · intro i hi
    have hik : i ≠ k := by omega
    simp [fInit, hik]

theorem fInv1_start (n : Nat) (s : FProc) (k : Nat) (h : fInv1 n s) (hk : k < n) :
    fInv1 n (fStep s (FEvent.start k)) := by
  obtain ⟨hc, hi, hp, hpr, hf, ⟨j, hj, hjt⟩, h7, h8⟩ := h
  cases htk : s.tasks k with
  | notStarted =>
    rw [fStep_start_join s k 0 htk hi]
    have hjk : j ≠ k := by
      intro hjk
      rw [hjk, htk] at hjt
      cases hjt
    refine ⟨hc, hi, hp, hpr, hf, ⟨j, hj, by simpa [hjk] using hjt⟩, ?_, ?_⟩
    · intro i
      by_cases hik : i = k
      · subst hik
        right
        exact ⟨false, by simp⟩
      · rcases h7 i with hns | ⟨c, hcc⟩
        · left
          simpa [hik] using hns
        · right
          exact ⟨c, by simpa [hik] using hcc⟩
    · intro i hi2
      have hik : i ≠ k := by omega
      simpa [hik] using h8 i hi2
  | awaiting pid c =>
    rw [fStep_start_skip s k (by simp [htk])]
    exact ⟨hc, hi, hp, hpr, hf, ⟨j, hj, hjt⟩, h7, h8⟩
  | done o =>
    rw [fStep_start_skip s k (by simp [htk])]
    exact ⟨hc, hi, hp, hpr, hf, ⟨j, hj, hjt⟩, h7, h8⟩

theorem fStep_keeps_started (s : FProc) (e : FEvent) (i : Nat)
    (h : s.tasks i ≠ FTask.notStarted) : (fStep s e).tasks i ≠ FTask.notStarted := by
  cases e with
  | start k =>
    cases htk : s.tasks k with
    | notStarted =>
      have hik : i ≠ k := by
        intro hik
        rw [hik, htk] at h
        exact h rfl
      cases hinf : s.inflight with
      | some pid =>
        rw [fStep_start_join s k pid htk hinf]
        simpa [hik] using h
      | none =>
        cases hcc : s.cache with
        | some t =>
          simp only [fStep, htk, hinf, hcc]
          simpa [hik] using h
        | none =>
          rw [fStep_start_fresh s k htk hinf hcc]
          simpa [hik] using h
    | awaiting pid c =>
      rw [fStep_start_skip s k (by simp [htk])]
      exact h
    | done o =>
      rw [fStep_start_skip s k (by simp [htk])]
      exact h
  | settle pid o =>
    by_cases hp : pid < s.promCount
    · cases hpr : s.proms pid with
      | pending =>
        rw [fStep_settle_pending s pid o hp hpr]
        exact h
      | settled o' =>
        simpa [fStep, hp, hpr] using h
    · simpa [fStep, hp] using h
  | resume k =>
    cases htk : s.tasks k with
    | notStarted =>
      rw [fStep_resume_skip_ns s k htk]
      exact h
    | awaiting pid c =>
      cases hpr : s.proms pid with
      | pending =>
        simpa [fStep, htk, hpr] using h
      | settled o =>
        rw [fStep_resume_settled s k pid c o htk hpr]
        by_cases hik : i = k
        · subst hik
          simp
        · simpa [hik] using h
    | done o =>
      rw [fStep_resume_skip_done s k o htk]
      exact h

theorem fStep_start_sets (n : Nat) (s : FProc) (k : Nat) (h : fInv1 n s) :
    (fStep s (FEvent.start k)).tasks k ≠ FTask.notStarted := by
  cases htk : s.tasks k with
  | notStarted =>
    rw [fStep_start_join s k 0 htk h.2.1]
    simp
  | awaiting pid c =>
    rw [fStep_start_skip s k (by simp [htk])]
    simp [htk]
  | done o =>
    rw [fStep_start_skip s k (by simp [htk])]
    simp [htk]

theorem fRun_starts (n : Nat) : ∀ (ss : List FEvent) (s : FProc),
    (∀ e ∈ ss, ∃ k, k < n ∧ e = FEvent.start k) → fInv1 n s →
    fInv1 n (fRun s ss) ∧
    (∀ i, s.tasks i ≠ FTask.notStarted → (fRun s ss).tasks i ≠ FTask.notStarted) ∧
    (∀ k, k < n → FEvent.start k ∈ ss → (fRun s ss).tasks k ≠ FTask.notStarted) := by
  intro ss
  induction ss with
  | nil =>
    intro s _ h
    exact ⟨h, fun i hi => hi, fun k _ hk => absurd hk (List.not_mem_nil _)⟩
  | cons e ss ih =>
    intro s hall h
    obtain ⟨k0, hk0, rfl⟩ := hall e (by simp)
    obtain ⟨ih1, ih2, ih3⟩ := ih (fStep s (FEvent.start k0))
      (fun e2 he2 => hall e2 (by simp [he2])) (fInv1_start n s k0 h hk0)
    refine ⟨ih1, ?_, ?_⟩
    · intro i hi
      exact ih2 i (fStep_keeps_started s (FEvent.start k0) i hi)
    · intro k hk hmem
      rcases List.mem_cons.mp hmem with heq | hmem'
      · have hkk : k = k0 := by injection heq
        subst hkk
        exact ih2 k (fStep_start_sets n s k h)
      · exact ih3 k hk hmem'

theorem fStep_settle_inv (n : Nat) (o : FOutcome) (s : FProc) (h : fInv1 n s)
    (hs : ∀ i, i < n → s.tasks i ≠ FTask.notStarted) :
    fInv3 n o (fStep s (FEvent.settle 0 o)) := by
  obtain ⟨hc, hi, hp, hpr, hf, ⟨j, hj, hjt⟩, h7, h8⟩ := h
  rw [fStep_settle_pending s 0 o (by omega) hpr]
  refine ⟨hp, by simp, hf, ?_, h8, Or.inl ⟨j, hj, hjt⟩⟩
  intro i hi2
  rcases h7 i with hns | ⟨c, hcc⟩
  · exact absurd hns (hs i hi2)
  · exact Or.inl ⟨c, hcc⟩

theorem fInv3_resume (n : Nat) (o : FOutcome) (s : FProc) (k : Nat) (h : fInv3 n o s) :
    fInv3 n o (fStep s (FEvent.resume k)) ∧
    (∀ i, s.tasks i = FTask.done o → (fStep s (FEvent.resume k)).tasks i = FTask.done o) ∧
    (k < n → (fStep s (FEvent.resume k)).tasks k = FTask.done o) := by
  obtain ⟨hp, hpr, hf, h4, h5, h6⟩ := h
  cases htk : s.tasks k with
  | notStarted =>
    rw [fStep_resume_skip_ns s k htk]
    refine ⟨⟨hp, hpr, hf, h4, h5, h6⟩, fun i hi => hi, ?_⟩
    intro hk
    rcases h4 k hk with ⟨c, hcc⟩ | hdone
    · rw [htk] at hcc; cases hcc
    · rw [htk] at hdone; cases hdone
  | awaiting pid c =>
    have hk : k < n := by
      by_contra hk
      rw [h5 k (by omega)] at htk
      cases htk
    have hpid : pid = 0 := by
      rcases h4 k hk with ⟨c', hcc⟩ | hdone
      · rw [htk] at hcc
        injection hcc with e1 e2
      · rw [htk] at hdone
        cases hdone
    subst hpid
    rw [fStep_resume_settled s k 0 c o htk hpr]
    refine ⟨⟨hp, hpr, hf, ?_, ?_, ?_⟩, ?_, ?_⟩
    · intro i hi2
      by_cases hik : i = k
      · subst hik
        right
        simp
      · rcases h4 i hi2 with ⟨c', hcc⟩ | hdone
        · exact Or.inl ⟨c', by simpa [hik] using hcc⟩
        · exact Or.inr (by simpa [hik] using hdone)
    · intro i hi2
      have hik : i ≠ k := by
        intro hik
        rw [hik] at hi2
        omega
      simpa [hik] using h5 i hi2
    · cases c with
      | true => simp
      | false =>
        rcases h6 with ⟨j, hj, hjt⟩ | hnone
        · have hjk : j ≠ k := by
            intro hjk
            rw [hjk, htk] at hjt
            injection hjt with e1 e2
            cases e2
          exact Or.inl ⟨j, hj, by simpa [hjk] using hjt⟩
        · right
          simpa using hnone
    · intro i hi
      by_cases hik : i = k
      · subst hik; simp
      · simpa [hik] using hi
    · intro _
      simp
  | done o' =>
    have ho : o' = o := by
      by_cases hk : k < n
      · rcases h4 k hk with ⟨c', hcc⟩ | hdone
        · rw [htk] at hcc; cases hcc
        · rw [htk] at hdone
          injection hdone
      · rw [h5 k (by omega)] at htk
        cases htk
    rw [fStep_resume_skip_done s k o' htk]
    exact ⟨⟨hp, hpr, hf, h4, h5, h6⟩, fun i hi => hi, fun _ => ho ▸ htk⟩

theorem fRun_resumes (n : Nat) (o : FOutcome) : ∀ (rs : List FEvent) (s : FProc),
    (∀ e ∈ rs, ∃ k, e = FEvent.resume k) → fInv3 n o s →
    fInv3 n o (fRun s rs) ∧
    (∀ i, s.tasks i = FTask.done o → (fRun s rs).tasks i = FTask.done o) ∧
    (∀ k, k < n → FEvent.resume k ∈ rs → (fRun s rs).tasks k = FTask.done o) := by
  intro rs
  induction rs with
  | nil =>
    intro s _ h
    exact ⟨h, fun i hi => hi, fun k _ hk => absurd hk (List.not_mem_nil _)⟩
  | cons e rs ih =>
    intro s hall h
    obtain ⟨k0, rfl⟩ := hall e (by simp)
    obtain ⟨hstep, hkeep, hsets⟩ := fInv3_resume n o s k0 h
    obtain ⟨ih1, ih2, ih3⟩ := ih (fStep s (FEvent.resume k0))
      (fun e2 he2 => hall e2 (by simp [he2])) hstep
    refine ⟨ih1, ?_, ?_⟩
    · intro i hi
      exact ih2 i (hkeep i hi)
    · intro k hk hmem
      rcases List.mem_cons.mp hmem with heq | hmem'
      · have hkk : k = k0 := by injection heq
        subst hkk
        exact ih2 k (hsets hk)
      · exact ih3 k hk hmem'

/-- Claim C2: if `n` calls to `fetchCss` for the same URL are all issued before
the single pending retrieval settles, exactly one network retrieval occurs,
every caller resolves or rejects with the same outcome `o`, and the in-flight
entry is removed once the calls have resumed, whether the retrieval succeeded
or failed. -/
theorem fetchCss_concurrent_dedup (n : Nat) (o : FOutcome) (ss rs : List FEvent)
    (hn : 0 < n)
    (hss : ∀ e ∈ ss, ∃ k, k < n ∧ e = FEvent.start k)
    (hssAll : ∀ i, i < n → FEvent.start i ∈ ss)
    (hrs : ∀ e ∈ rs, ∃ k, e = FEvent.resume k)
    (hrsAll : ∀ i, i < n → FEvent.resume i ∈ rs) :
    (fRun fInit (ss ++ FEvent.settle 0 o :: rs)).fetchCount = 1 ∧
    (∀ i, i < n → (fRun fInit (ss ++ FEvent.settle 0 o :: rs)).tasks i = FTask.done o) ∧
    (fRun fInit (ss ++ FEvent.settle 0 o :: rs)).inflight = none := by
  obtain ⟨e0, ss', rfl⟩ : ∃ e0 ss', ss = e0 :: ss' := by
    cases ss with
    | nil => exact absurd (hssAll 0 hn) (List.not_mem_nil _)
    | cons a l => exact ⟨a, l, rfl⟩
  obtain ⟨k0, hk0, he0⟩ := hss e0 (by simp)
  subst he0
  obtain ⟨s1inv, s1keep, s1mem⟩ := fRun_starts n ss' (fStep fInit (FEvent.start k0))
    (fun e he => hss e (by simp [he])) (fStep_start_fInit n k0 hk0)
  have hstarted : ∀ i, i < n →
      (fRun (fStep fInit (FEvent.start k0)) ss').tasks i ≠ FTask.notStarted := by
    intro i hi
    rcases List.mem_cons.mp (hssAll i hi) with heq | hmem'
    · have hik : i = k0 := by injection heq
      subst hik
      refine s1keep i ?_
      rw [fStep_start_fresh fInit i rfl rfl rfl]
      simp
    · exact s1mem i hi hmem'
  obtain ⟨finv, fdone, fmem⟩ := fRun_resumes n o rs _ hrs
    (fStep_settle_inv n o _ s1inv hstarted)
  have hsplit : fRun fInit (FEvent.start k0 :: ss' ++ FEvent.settle 0 o :: rs)
      = fRun (fStep (fRun (fStep fInit (FEvent.start k0)) ss') (FEvent.settle 0 o)) rs := by
    simp [fRun, List.foldl_append]
  rw [hsplit]
  have hall : ∀ i, i < n →
      (fRun (fStep (fRun (fStep fInit (FEvent.start k0)) ss')
          (FEvent.settle 0 o)) rs).tasks i = FTask.done o :=
    fun i hi => fmem i hi (hrsAll i hi)
  refine ⟨finv.2.2.1, hall, ?_⟩
  rcases finv.2.2.2.2.2 with ⟨j, hj, hjt⟩ | hnone
  · rw [hall j hj] at hjt
    cases hjt
  · exact hnone

/-- Witness for C2's theorem: two callers start before the retrieval settles
successfully; one retrieval happens, both finish with the text, and the
in-flight entry is gone. -/
theorem fetchCss_concurrent_dedup_w :
    (fRun fInit ([FEvent.start 0, FEvent.start 1]
        ++ FEvent.settle 0 (FOutcome.ok "t")
          :: [FEvent.resume 0, FEvent.resume 1])).fetchCount = 1 ∧
    (fRun fInit ([FEvent.start 0, FEvent.start 1]
        ++ FEvent.settle 0 (FOutcome.ok "t")
          :: [FEvent.resume 0, FEvent.resume 1])).inflight = none ∧
    (fRun fInit ([FEvent.start 0, FEvent.start 1]
        ++ FEvent.settle 0 (FOutcome.ok "t")
          :: [FEvent.resume 0, FEvent.resume 1])).tasks 0
      = FTask.done (FOutcome.ok "t") := by
  have h := fetchCss_concurrent_dedup 2 (FOutcome.ok "t")
    [FEvent.start 0, FEvent.start 1] [FEvent.resume 0, FEvent.resume 1]
    (by omega)
    (by
      intro e he
      rcases List.mem_cons.mp he with rfl | he2
      · exact ⟨0, by omega, rfl⟩
      rcases List.mem_cons.mp he2 with rfl | he3
      · exact ⟨1, by omega, rfl⟩
      exact absurd he3 (List.not_mem_nil _))
    (by
      intro i hi
      interval_cases i <;> simp)
    (by
      intro e he
      rcases List.mem_cons.mp he with rfl | he2
      · exact ⟨0, rfl⟩
      rcases List.mem_cons.mp he2 with rfl | he3
      · exact ⟨1, rfl⟩
      exact absurd he3 (List.not_mem_nil _))
    (by
      intro i hi
      interval_cases i <;> simp)
  exact ⟨h.1, h.2.2, h.2.1 0 (by omega)⟩
